import Mathlib

/-!
Shallow embedding of the zoom-teams-app core: the in-memory queue with its
retry/backoff execution loop, the webhook event dispatch, and the
idempotent upsert protocol against the external record store.
Every definition is translated from the TypeScript source; comments point
to the source function being modelled.
-/

namespace ZoomTeams

/-! ### Queue data model (queueService, class InMemoryQueue) -/

/-- The `counts` record of `InMemoryQueue`. -/
structure JobCounts where
  waiting : Nat
  active : Nat
  completed : Nat
  failed : Nat
  delayed : Nat
  paused : Nat
deriving Repr, DecidableEq

def JobCounts.zero : JobCounts := ⟨0, 0, 0, 0, 0, 0⟩

/-- Bull-style `JobOptions.backoff`: either a bare number or an object
`{ type, delay? }` (`delay` is `none` when it is not a number). -/
inductive BackoffOpt where
  | num (n : Nat)
  | obj (type : String) (delay : Option Nat)
deriving Repr, DecidableEq

/-- Bull-style `JobOptions` as used by the in-memory queue: only `attempts`
and `backoff` are read. -/
structure JobOptions where
  attempts : Option Nat
  backoff : Option BackoffOpt
deriving Repr, DecidableEq

/-- Model of `InMemoryQueue.getBackoffDelay(backoff, attempt)`.  A numeric backoff of
`0` takes the `.num` branch here while the source's falsiness test
(`if (!backoff)`) takes the early return; both return `0`, so the value is
unchanged. -/
def getBackoffDelay (backoff : Option BackoffOpt) (attempt : Nat) : Nat :=
  match backoff with
  | none => 0
  | some (.num n) => n
  | some (.obj t d) =>
    let baseDelay := match d with
      | some n => n
      | none => 0
    if t = "exponential" then baseDelay * 2 ^ (attempt - 1) else baseDelay

/-- Observable events of one `InMemoryQueue.execute` run: how often the
handler was invoked, each firing of the `completed` listeners, each firing
of the `failed` and `error` listeners, and the backoff delays slept. -/
structure ExecLog (J E : Type) where
  handlerCalls : Nat
  completedFires : List J
  failedFires : List (J × E)
  errorFires : List E
  delays : List Nat
deriving Repr, DecidableEq

def ExecLog.empty {J E : Type} : ExecLog J E := ⟨0, [], [], [], []⟩

/-- The delays slept by the `catch` block of `InMemoryQueue.execute`:
`if (attempt < attempts) { const delay = getBackoffDelay(...); if (delay > 0) sleep(delay) }`.
`attempt < attempts` holds exactly when `r`, the number of attempts still
remaining after this one, is positive.  The source also increments the
`delayed` count before the sleep and decrements it after, which nets to the
original value in the final state. -/
def retryDelays (backoff : Option BackoffOpt) (attempt r : Nat) : List Nat :=
  if 0 < r then
    let delay := getBackoffDelay backoff attempt
    if 0 < delay then [delay] else []
  else []

/-- The fall-through after the `for` loop of `InMemoryQueue.execute`: the
job is terminally failed, `failed` listeners fire with `(job, lastError)`
and `error` listeners fire with the error (`lastError ?? new Error(...)`,
the default being `defaultErr`). -/
def jobFailed {J E : Type} (job : J) (lastError : Option E) (defaultErr : E)
    (c : JobCounts) (l : ExecLog J E) : JobCounts × ExecLog J E :=
  let e := lastError.getD defaultErr
  ({ c with active := c.active - 1, failed := c.failed + 1 },
   { l with failedFires := l.failedFires ++ [(job, e)],
            errorFires := l.errorFires ++ [e] })

/-- The `for (let attempt = 1; attempt <= attempts; attempt++)` loop of
`InMemoryQueue.execute`.  `handlerRes i` is the outcome of the handler's
`(i+1)`-th invocation (`none` = returned normally, `some e` = threw `e`);
`listenerThrow j` says whether the `(j+1)`-th firing of the `completed`
listener batch throws.  `r` is the number of loop iterations still allowed
(`attempts - attempt + 1`).  A listener exception is raised after the
counts were updated and is caught by the same `catch` as a handler
exception, exactly as in the source. -/
def execFrom {J E : Type} (handlerRes listenerThrow : Nat → Option E) (job : J)
    (backoff : Option BackoffOpt) (defaultErr : E) :
    Nat → Nat → Option E → JobCounts → ExecLog J E → JobCounts × ExecLog J E
  | 0, _, lastError, c, l => jobFailed job lastError defaultErr c l
  | r + 1, attempt, _, c, l =>
    match handlerRes l.handlerCalls with
    | none =>
      let c1 : JobCounts := { c with active := c.active - 1, completed := c.completed + 1 }
      let l1 : ExecLog J E := { l with handlerCalls := l.handlerCalls + 1,
                                       completedFires := l.completedFires ++ [job] }
      match listenerThrow l.completedFires.length with
      | none => (c1, l1)
      | some e =>
        execFrom handlerRes listenerThrow job backoff defaultErr r (attempt + 1) (some e)
          c1 { l1 with delays := l1.delays ++ retryDelays backoff attempt r }
    | some e =>
      execFrom handlerRes listenerThrow job backoff defaultErr r (attempt + 1) (some e)
        c { l with handlerCalls := l.handlerCalls + 1,
                   delays := l.delays ++ retryDelays backoff attempt r }

/-- Model of `InMemoryQueue.execute(job, options)`: entry bookkeeping
(`waiting -= 1` clamped at `0`, `active += 1`), resolution of the attempt
budget (`Math.max(1, options.attempts ?? 1)`), then the attempt loop
starting at attempt `1`. -/
def execute {J E : Type} (handlerRes listenerThrow : Nat → Option E) (job : J)
    (options : JobOptions) (defaultErr : E) (c : JobCounts) : JobCounts × ExecLog J E :=
  let c0 : JobCounts := { c with waiting := c.waiting - 1, active := c.active + 1 }
  let attempts := max 1 (options.attempts.getD 1)
  execFrom handlerRes listenerThrow job options.backoff defaultErr attempts 1 none c0 ExecLog.empty

/-! ### Queue add/process (queueService, class InMemoryQueue) -/

/-- The `{ id, data }` object built by `InMemoryQueue.add`. -/
structure QueueJobLike (T : Type) where
  id : Nat
  data : T
deriving Repr, DecidableEq

/-- Mutable state of an `InMemoryQueue`: `nextId`, whether a handler has
been registered by `process`, the `pending` buffer and the counts. -/
structure QueueState (T : Type) where
  nextId : Nat
  hasHandler : Bool
  pending : List (QueueJobLike T × JobOptions)
  counts : JobCounts
deriving Repr, DecidableEq

/-- A freshly constructed `InMemoryQueue` (`nextId = 1`, no handler, empty
buffer, zero counts). -/
def QueueState.init (T : Type) : QueueState T := ⟨1, false, [], JobCounts.zero⟩

/-- Model of `InMemoryQueue.add(data, options)`.  Returns the new state and, when a
handler is already registered, the execution that was started
(`void this.execute(job, options)`); with no handler the job is buffered
and `counts.waiting` set to the buffer length. -/
def addJob {T : Type} (s : QueueState T) (data : T) (options : JobOptions) :
    QueueState T × Option (QueueJobLike T × JobOptions) :=
  let job : QueueJobLike T := ⟨s.nextId, data⟩
  if s.hasHandler then
    ({ s with nextId := s.nextId + 1,
              counts := { s.counts with waiting := s.counts.waiting + 1 } },
     some (job, options))
  else
    let pending := s.pending ++ [(job, options)]
    ({ s with nextId := s.nextId + 1, pending := pending,
              counts := { s.counts with waiting := pending.length } },
     none)

/-- Model of `InMemoryQueue.process(handler)`: registers the handler, then drains a
non-empty buffer, starting one execution per buffered entry in buffer
order.  Returns the new state and the list of executions started. -/
def processQueue {T : Type} (s : QueueState T) :
    QueueState T × List (QueueJobLike T × JobOptions) :=
  let s1 : QueueState T := { s with hasHandler := true }
  if s1.pending.isEmpty then (s1, [])
  else
    let queued := s1.pending
    ({ s1 with pending := [],
               counts := { s1.counts with waiting := queued.length } },
     queued)

/-- Folding `InMemoryQueue.add` over a list of `(data, options)` pairs. -/
def addAll {T : Type} (s : QueueState T) (items : List (T × JobOptions)) : QueueState T :=
  items.foldl (fun acc p => (addJob acc p.1 p.2).1) s

/-! ### Webhook dispatch (routes, createRoutes: the switch on event.event) -/

/-- JavaScript `a || b` on an optional string: an absent field and the
empty string are both falsy. -/
def jsOrString (a : Option String) (b : String) : String :=
  match a with
  | some s => if s = "" then b else s
  | none => b

/-- The test `leadsWith l pat` is true when `pat` occurs at the head of `l`. -/
def leadsWith {α : Type} [DecidableEq α] : List α → List α → Bool
  | _, [] => true
  | [], _ :: _ => false
  | a :: as, b :: bs => if a = b then leadsWith as bs else false

/-- The test `containsSeq pat l` is true when `pat` occurs contiguously in `l`. -/
def containsSeq {α : Type} [DecidableEq α] (pat : List α) : List α → Bool
  | [] => leadsWith ([] : List α) pat
  | a :: as => leadsWith (a :: as) pat || containsSeq pat as

/-- JavaScript `s.toLowerCase().includes(pat)`: character-wise lowercasing
followed by a contiguous-substring test. -/
def jsIncludesLower (s pat : String) : Bool :=
  containsSeq pat.data (s.data.map Char.toLower)

/-- One entry of `payload.object.call_logs` as read by the routes. -/
structure CallLogEntry where
  call_id : String
  result : String
  duration : Nat
  has_recording : Bool
deriving Repr, DecidableEq

/-- The fields of `event.payload.object` that the webhook switch consults
to decide what to enqueue.  Absent fields are `none` (for the two result
fields) or the empty list (for `call_logs`). -/
structure WebhookObject where
  call_id : String
  id : String
  handup_result : Option String
  result : Option String
  call_logs : List CallLogEntry
deriving Repr, DecidableEq

/-- The enqueue operations of `QueueService` that the webhook switch can
perform. -/
inductive QueueAdd where
  | missedCall
  | voicemail
  | salesCall
deriving Repr, DecidableEq

/-- The `phone.callee_ended` / `phone.caller_ended` case body: read
`handup_result || result || ''` and enqueue a missed call when it is
`'Call Canceled'`, `'Voicemail'`, `'No Answer'`, or contains `'missed'`
case-insensitively; otherwise enqueue nothing. -/
def callEndedCase (obj : WebhookObject) : List QueueAdd :=
  let hangupResult := jsOrString obj.handup_result (jsOrString obj.result "")
  if hangupResult = "Call Canceled" ∨ hangupResult = "Voicemail" ∨
      hangupResult = "No Answer" ∨ jsIncludesLower hangupResult "missed" then
    [QueueAdd.missedCall]
  else []

/-- Body of the second `case 'phone.callee_call_log_completed'` of the
switch (the one that enqueues a sales call when the first call-log entry's
result is neither `'Missed'` nor `'Voicemail'`).  Because an identical case
label occurs earlier in the same switch, this body is unreachable at
runtime: a JavaScript switch runs the first matching case. -/
def callLogCompletedSecondCase (obj : WebhookObject) : List QueueAdd :=
  match obj.call_logs.head? with
  | none => []
  | some log =>
    if log.result ≠ "Missed" ∧ log.result ≠ "Voicemail" then [QueueAdd.salesCall] else []

/-- The switch on `event.event` in `createRoutes`, as executed: the first
matching case wins, so for `'phone.callee_call_log_completed'` the first
case body (log-only, no enqueue) runs and the second one never does.
Returns the queue additions the handler performs. -/
def handleWebhookEvent (eventType : String) (obj : WebhookObject) : List QueueAdd :=
  if eventType = "phone.callee_ended" ∨ eventType = "phone.caller_ended" then
    callEndedCase obj
  else if eventType = "phone.callee_missed" then [QueueAdd.missedCall]
  else if eventType = "phone.voicemail_received" then [QueueAdd.voicemail]
  else if eventType = "phone.callee_call_log_completed" then []
  else if eventType = "phone.callee_ringing" then []
  else if eventType = "phone.callee_answered" then []
  else if eventType = "phone.recording_started" then []
  else if eventType = "phone.recording_completed" then [QueueAdd.salesCall]
  else if eventType = "phone.recording_transcript_completed" then [QueueAdd.salesCall]
  else if eventType = "phone.ai_call_summary_changed" then [QueueAdd.salesCall]
  else if eventType = "phone.voicemail_transcript_completed" then [QueueAdd.voicemail]
  else if eventType = "phone.callee_missed_call" then [QueueAdd.missedCall]
  else []

/-! ### Upsert protocol (graphService, GraphService) -/

/-- Model of `SalesCallItem` (types.ts).  Optional string fields are modelled as
strings with `""` for an absent value, matching the source's JavaScript
truthiness tests (`undefined` and `''` are both falsy); an absent `owner`
is the empty list (`item.owner && item.owner.length > 0`). -/
structure SalesCallItem where
  contact : String
  summary : String
  priority : String
  status : String
  callTimestamp : String
  recordingLink : String
  transcript : String
  aiSummary : String
  callId : String
  duration : Nat
  owner : List String
deriving Repr, DecidableEq

/-- A stored row of the Sales Calls SharePoint list, with the fields
`GraphService.createSalesCallItem` writes. -/
structure SalesCallRow where
  id : Nat
  Title : String
  Contact : String
  Priority : String
  Status : String
  CallTimestamp : String
  CallId : String
  Duration : Nat
  RecordingUrl : String
  TranscriptUrl : String
  AiSummary : String
  Owner : List String
deriving Repr, DecidableEq

/-- The patch built in the found-branch of `createSalesCallItem`: only the
non-empty incoming fields among recordingLink/transcript/aiSummary/status
are written. -/
def patchSalesCallRow (row : SalesCallRow) (item : SalesCallItem) : SalesCallRow :=
  let row := if item.recordingLink ≠ "" then { row with RecordingUrl := item.recordingLink } else row
  let row := if item.transcript ≠ "" then { row with TranscriptUrl := item.transcript } else row
  let row := if item.aiSummary ≠ "" then { row with AiSummary := item.aiSummary } else row
  if item.status ≠ "" then { row with Status := item.status } else row

/-- The list item posted by the create-branch of `createSalesCallItem`
(optional fields default to `''`, `Owner` only when non-empty). -/
def newSalesCallRow (id : Nat) (item : SalesCallItem) : SalesCallRow :=
  { id := id, Title := item.summary, Contact := item.contact,
    Priority := item.priority, Status := item.status,
    CallTimestamp := item.callTimestamp, CallId := item.callId,
    Duration := item.duration, RecordingUrl := item.recordingLink,
    TranscriptUrl := item.transcript, AiSummary := item.aiSummary,
    Owner := item.owner }

/-- Model of `GraphService.createSalesCallItem(item)` against a store modelled as a
row list plus a fresh-id counter.  When `item.callId` is truthy, the list
is filtered on `fields/CallId eq callId` and the first hit (`value[0]`) is
patched in place; otherwise (or on no hit) a new row is created.  Returns
`(rows, nextId, returned id)`. -/
def createSalesCallItem (rows : List SalesCallRow) (nextId : Nat) (item : SalesCallItem) :
    List SalesCallRow × Nat × Nat :=
  if item.callId ≠ "" then
    match rows.find? (fun r => r.CallId = item.callId) with
    | some row =>
      (rows.map (fun r => if r.id = row.id then patchSalesCallRow r item else r), nextId, row.id)
    | none => (rows ++ [newSalesCallRow nextId item], nextId + 1, nextId)
  else (rows ++ [newSalesCallRow nextId item], nextId + 1, nextId)

/-- Model of `SalesLeadItem` (types.ts), with the same `""`-for-absent convention. -/
structure SalesLeadItem where
  channel : String
  summary : String
  priority : String
  status : String
  callTimestamp : String
  voicemailLink : String
  transcript : String
  callId : String
  owner : List String
deriving Repr, DecidableEq

/-- A stored row of the Sales Leads SharePoint list, with the fields
`GraphService.createSalesLeadItem` writes (`PlannerTaskId` is written later
by the link-back patch; `""` models an unset field). -/
structure SalesLeadRow where
  id : Nat
  Title : String
  Channel : String
  Priority : String
  Status : String
  CallTimestamp : String
  CallId : String
  VoicemailTranscript : String
  PlannerTaskId : String
  Owner : List String
deriving Repr, DecidableEq

/-- The found-branch patch of `createSalesLeadItem`: only the transcript is
written, and only when the incoming one is non-empty. -/
def patchSalesLeadRow (row : SalesLeadRow) (item : SalesLeadItem) : SalesLeadRow :=
  if item.transcript ≠ "" then { row with VoicemailTranscript := item.transcript } else row

/-- The list item posted by the create-branch of `createSalesLeadItem`. -/
def newSalesLeadRow (id : Nat) (item : SalesLeadItem) : SalesLeadRow :=
  { id := id, Title := item.summary, Channel := item.channel,
    Priority := item.priority, Status := item.status,
    CallTimestamp := item.callTimestamp, CallId := item.callId,
    VoicemailTranscript := item.transcript, PlannerTaskId := "",
    Owner := item.owner }

/-- Model of `GraphService.createSalesLeadItem(item)`.  Returns
`(rows, nextId, returned id, returned plannerTaskId)` — the found branch
also returns the stored `PlannerTaskId` (`""` when unset), the create
branch returns no task id. -/
def createSalesLeadItem (rows : List SalesLeadRow) (nextId : Nat) (item : SalesLeadItem) :
    List SalesLeadRow × Nat × Nat × String :=
  if item.callId ≠ "" then
    match rows.find? (fun r => r.CallId = item.callId) with
    | some row =>
      (rows.map (fun r => if r.id = row.id then patchSalesLeadRow r item else r),
       nextId, row.id, row.PlannerTaskId)
    | none => (rows ++ [newSalesLeadRow nextId item], nextId + 1, nextId, "")
  else (rows ++ [newSalesLeadRow nextId item], nextId + 1, nextId, "")

/-- The `while (retries > 0)` read-then-conditional-patch loop of
`GraphService.createPlannerTask`.  `patchRes i` is the outcome of the
`(i+1)`-th read-modify-patch cycle (`none` = patch accepted, `some e` = the
cycle threw `e`, e.g. an If-Match version conflict).  On failure the source
decrements `retries`, rethrows when they are exhausted, and otherwise
sleeps 1500 ms and retries.  Returns (surfaced error if any, number of
cycles performed, delays slept). -/
def plannerPatchLoop {E : Type} (patchRes : Nat → Option E) :
    Nat → Nat → List Nat → Option E × Nat × List Nat
  | 0, made, ds => (none, made, ds)
  | r + 1, made, ds =>
    match patchRes made with
    | none => (none, made + 1, ds)
    | some e =>
      if r = 0 then (some e, made + 1, ds)
      else plannerPatchLoop patchRes r (made + 1) (ds ++ [1500])

/-- The detail-patch section of `createPlannerTask` enters the loop with
`retries = 3`. -/
def plannerDetailPatch {E : Type} (patchRes : Nat → Option E) : Option E × Nat × List Nat :=
  plannerPatchLoop patchRes 3 0 []

/-- Model of `GraphService.updateSalesLeadPlannerTaskId`: the PATCH writing the task
id onto the lead row is wrapped in try/catch with no rethrow ("Soft fail,
don't throw"), so whatever the patch outcome, the call returns normally. -/
def updateSalesLeadPlannerTaskId {E : Type} (patchOutcome : Except E Unit) : Except E Unit :=
  match patchOutcome with
  | .ok _ => .ok ()
  | .error _ => .ok ()

/-- Model of `GraphService.postToTeamsChannel`: skips when no webhook URL is
configured, and catches any post error without rethrowing. -/
def postToTeamsChannel {E : Type} (webhookConfigured : Bool) (postOutcome : Except E Unit) :
    Except E Unit :=
  if webhookConfigured then
    match postOutcome with
    | .ok _ => .ok ()
    | .error _ => .ok ()
  else .ok ()

/-! ### Job handlers (queueProcessor, QueueProcessor) -/

/-- Outcomes of the external calls made by
`QueueProcessor.processMissedCall`, in call order.  `leadOutcome` carries
the `(listItemId, existingPlannerTaskId)` pair returned by
`createSalesLeadItem` (`""` = no existing task), `taskOutcome` the task id
from `createPlannerTask`, `linkPatchOutcome` the raw PATCH inside
`updateSalesLeadPlannerTaskId`, and `teamsPostOutcome` the raw post inside
`postToTeamsChannel`. -/
structure MissedCallEnv (E : Type) where
  leadOutcome : Except E (Nat × String)
  taskOutcome : Except E String
  linkPatchOutcome : Except E Unit
  teamsConfigured : Bool
  teamsPostOutcome : Except E Unit

/-- Model of `QueueProcessor.processMissedCall`: create-or-find the lead, create or
update the planner task, link the task back only when it is new
(`!existingPlannerTaskId && taskId`), then post to Teams (itself wrapped in
a try/catch at the call site).  The handler's own catch rethrows, so any
error from the awaited steps propagates unchanged. -/
def processMissedCall {E : Type} (env : MissedCallEnv E) : Except E Unit :=
  match env.leadOutcome with
  | .error e => .error e
  | .ok (_listItemId, existingPlannerTaskId) =>
    match env.taskOutcome with
    | .error e => .error e
    | .ok taskId =>
      match (if existingPlannerTaskId = "" ∧ taskId ≠ "" then
               updateSalesLeadPlannerTaskId env.linkPatchOutcome
             else .ok ()) with
      | .error e => .error e
      | .ok _ =>
        match postToTeamsChannel env.teamsConfigured env.teamsPostOutcome with
        | .error e => .error e
        | .ok _ => .ok ()

/-- Outcomes of the external calls made by
`QueueProcessor.processVoicemail`; `transcript` gates the Teams post. -/
structure VoicemailEnv (E : Type) where
  transcript : String
  leadOutcome : Except E (Nat × String)
  taskOutcome : Except E String
  linkPatchOutcome : Except E Unit
  teamsConfigured : Bool
  teamsPostOutcome : Except E Unit

/-- Model of `QueueProcessor.processVoicemail`: same shape as `processMissedCall`,
except the Teams notification is only attempted when a transcript is
present. -/
def processVoicemail {E : Type} (env : VoicemailEnv E) : Except E Unit :=
  match env.leadOutcome with
  | .error e => .error e
  | .ok (_listItemId, existingPlannerTaskId) =>
    match env.taskOutcome with
    | .error e => .error e
    | .ok taskId =>
      match (if existingPlannerTaskId = "" ∧ taskId ≠ "" then
               updateSalesLeadPlannerTaskId env.linkPatchOutcome
             else .ok ()) with
      | .error e => .error e
      | .ok _ =>
        match (if env.transcript ≠ "" then
                 postToTeamsChannel env.teamsConfigured env.teamsPostOutcome
               else .ok ()) with
        | .error e => .error e
        | .ok _ => .ok ()

/-! ### Helper lemmas -/

theorem updateSalesLeadPlannerTaskId_ok {E : Type} (o : Except E Unit) :
    updateSalesLeadPlannerTaskId o = .ok () := by
  cases o <;> rfl

theorem postToTeamsChannel_ok {E : Type} (b : Bool) (o : Except E Unit) :
    postToTeamsChannel b o = .ok () := by
  cases b <;> cases o <;> rfl

/-- If the handler fails on its first `f` invocations and succeeds on
invocation `f + 1`, and no completed listener throws, the attempt loop
stops after exactly `f + 1` handler calls, fires the completed listeners
once with the job, fires no failed/error listeners, and moves the job from
active to completed. -/
theorem execFrom_first_success {J E : Type} (handlerRes listenerThrow : Nat → Option E)
    (job : J) (backoff : Option BackoffOpt) (defaultErr : E)
    (hlis : ∀ j, listenerThrow j = none) :
    ∀ (f r attempt : Nat) (lastE : Option E) (c : JobCounts) (l : ExecLog J E),
      f < r →
      (∀ i, i < f → handlerRes (l.handlerCalls + i) ≠ none) →
      handlerRes (l.handlerCalls + f) = none →
      ∃ ds, execFrom handlerRes listenerThrow job backoff defaultErr r attempt lastE c l =
        (⟨c.waiting, c.active - 1, c.completed + 1, c.failed, c.delayed, c.paused⟩,
         ⟨l.handlerCalls + f + 1, l.completedFires ++ [job], l.failedFires, l.errorFires, ds⟩) := by
  intro f
  induction f with
  | zero =>
    intro r attempt lastE c l hfr hfail hsucc
    obtain ⟨r, rfl⟩ : ∃ r2, r = r2 + 1 := ⟨r - 1, by omega⟩
    rw [Nat.add_zero] at hsucc
    refine ⟨l.delays, ?_⟩
    simp [execFrom, hsucc, hlis]
  | succ f ih =>
    intro r attempt lastE c l hfr hfail hsucc
    obtain ⟨r, rfl⟩ : ∃ r2, r = r2 + 1 := ⟨r - 1, by omega⟩
    obtain ⟨e0, he0⟩ : ∃ e0, handlerRes l.handlerCalls = some e0 := by
      cases hh : handlerRes l.handlerCalls with
      | none =>
        have h0 := hfail 0 (by omega)
        rw [Nat.add_zero] at h0
        exact absurd hh h0
      | some e => exact ⟨e, rfl⟩
    have hstep : execFrom handlerRes listenerThrow job backoff defaultErr (r + 1) attempt lastE c l =
        execFrom handlerRes listenerThrow job backoff defaultErr r (attempt + 1) (some e0) c
          { l with handlerCalls := l.handlerCalls + 1,
                   delays := l.delays ++ retryDelays backoff attempt r } := by
      simp [execFrom, he0]
    have hfail1 : ∀ i, i < f →
        handlerRes (l.handlerCalls + 1 + i) ≠ none := by
      intro i hi
      have h := hfail (i + 1) (by omega)
      rw [show l.handlerCalls + 1 + i = l.handlerCalls + (i + 1) from by omega]
      exact h
    have hsucc1 : handlerRes (l.handlerCalls + 1 + f) = none := by
      rw [show l.handlerCalls + 1 + f = l.handlerCalls + (f + 1) from by omega]
      exact hsucc
    obtain ⟨ds, hds⟩ := ih r (attempt + 1) (some e0) c
      { l with handlerCalls := l.handlerCalls + 1,
               delays := l.delays ++ retryDelays backoff attempt r }
      (by omega) hfail1 hsucc1
    refine ⟨ds, ?_⟩
    rw [hstep, hds]
    have harith : l.handlerCalls + 1 + f + 1 = l.handlerCalls + (f + 1) + 1 := by omega
    simp [harith]

/-- If the handler throws on every one of `r + 1` allowed invocations, the
loop exhausts its attempts: `r + 1` handler calls, no completed firing, one
failed firing and one error firing with the last error, failed count
incremented, active count decremented. -/
theorem execFrom_all_fail {J E : Type} (handlerRes listenerThrow : Nat → Option E)
    (job : J) (backoff : Option BackoffOpt) (defaultErr : E) (errF : Nat → E) :
    ∀ (r attempt : Nat) (lastE : Option E) (c : JobCounts) (l : ExecLog J E),
      (∀ i, i < r + 1 → handlerRes (l.handlerCalls + i) = some (errF (l.handlerCalls + i))) →
      ∃ ds, execFrom handlerRes listenerThrow job backoff defaultErr (r + 1) attempt lastE c l =
        (⟨c.waiting, c.active - 1, c.completed, c.failed + 1, c.delayed, c.paused⟩,
         ⟨l.handlerCalls + (r + 1), l.completedFires,
          l.failedFires ++ [(job, errF (l.handlerCalls + r))],
          l.errorFires ++ [errF (l.handlerCalls + r)], ds⟩) := by
  intro r
  induction r with
  | zero =>
    intro attempt lastE c l hfail
    have h0 := hfail 0 (by omega)
    rw [Nat.add_zero] at h0
    refine ⟨l.delays ++ retryDelays backoff attempt 0, ?_⟩
    simp [execFrom, h0, jobFailed]
  | succ r ih =>
    intro attempt lastE c l hfail
    have h0 := hfail 0 (by omega)
    rw [Nat.add_zero] at h0
    have hstep : execFrom handlerRes listenerThrow job backoff defaultErr (r + 1 + 1) attempt lastE c l =
        execFrom handlerRes listenerThrow job backoff defaultErr (r + 1) (attempt + 1)
          (some (errF l.handlerCalls)) c
          { l with handlerCalls := l.handlerCalls + 1,
                   delays := l.delays ++ retryDelays backoff attempt (r + 1) } := by
      simp [execFrom, h0]
    have hfail1 : ∀ i, i < r + 1 →
        handlerRes (l.handlerCalls + 1 + i) = some (errF (l.handlerCalls + 1 + i)) := by
      intro i hi
      have h := hfail (i + 1) (by omega)
      rw [show l.handlerCalls + 1 + i = l.handlerCalls + (i + 1) from by omega]
      exact h
    obtain ⟨ds, hds⟩ := ih (attempt + 1) (some (errF l.handlerCalls)) c
      { l with handlerCalls := l.handlerCalls + 1,
               delays := l.delays ++ retryDelays backoff attempt (r + 1) }
      hfail1
    refine ⟨ds, ?_⟩
    rw [hstep, hds]
    have h1 : l.handlerCalls + 1 + (r + 1) = l.handlerCalls + (r + 1 + 1) := by omega
    have h2 : l.handlerCalls + 1 + r = l.handlerCalls + (r + 1) := by omega
    simp [h1, h2]

/-- If the handler always returns normally but the completed listener batch
always throws `e`, each of the `r + 1` allowed attempts succeeds, updates
the counts and fires the completed listeners, and the thrown `e` is caught
by the attempt loop and treated as a handler failure, so the job
eventually exhausts its attempts and is reported failed with `e`. -/
theorem execFrom_listener_throw {J E : Type} (handlerRes listenerThrow : Nat → Option E)
    (job : J) (backoff : Option BackoffOpt) (defaultErr : E) (e : E)
    (hh : ∀ i, handlerRes i = none) (hl : ∀ j, listenerThrow j = some e) :
    ∀ (r attempt : Nat) (lastE : Option E) (c : JobCounts) (l : ExecLog J E),
      ∃ ds, execFrom handlerRes listenerThrow job backoff defaultErr (r + 1) attempt lastE c l =
        (⟨c.waiting, c.active - (r + 1) - 1, c.completed + (r + 1), c.failed + 1,
          c.delayed, c.paused⟩,
         ⟨l.handlerCalls + (r + 1), l.completedFires ++ List.replicate (r + 1) job,
          l.failedFires ++ [(job, e)], l.errorFires ++ [e], ds⟩) := by
  intro r
  induction r with
  | zero =>
    intro attempt lastE c l
    refine ⟨l.delays ++ retryDelays backoff attempt 0, ?_⟩
    simp [execFrom, hh, hl, jobFailed, List.replicate_succ]
  | succ r ih =>
    intro attempt lastE c l
    have hstep : execFrom handlerRes listenerThrow job backoff defaultErr (r + 1 + 1) attempt lastE c l =
        execFrom handlerRes listenerThrow job backoff defaultErr (r + 1) (attempt + 1) (some e)
          ⟨c.waiting, c.active - 1, c.completed + 1, c.failed, c.delayed, c.paused⟩
          { l with handlerCalls := l.handlerCalls + 1,
                   completedFires := l.completedFires ++ [job],
                   delays := l.delays ++ retryDelays backoff attempt (r + 1) } := by
      simp [execFrom, hh, hl]
    obtain ⟨ds, hds⟩ := ih (attempt + 1) (some e)
      ⟨c.waiting, c.active - 1, c.completed + 1, c.failed, c.delayed, c.paused⟩
      { l with handlerCalls := l.handlerCalls + 1,
               completedFires := l.completedFires ++ [job],
               delays := l.delays ++ retryDelays backoff attempt (r + 1) }
    refine ⟨ds, ?_⟩
    rw [hstep, hds]
    have h1 : c.active - 1 - (r + 1) - 1 = c.active - (r + 1 + 1) - 1 := by omega
    have h2 : c.completed + 1 + (r + 1) = c.completed + (r + 1 + 1) := by omega
    have h3 : l.handlerCalls + 1 + (r + 1) = l.handlerCalls + (r + 1 + 1) := by omega
    simp [h1, h2, h3, List.replicate_succ]

/-- With a single allowed attempt, the loop invokes the handler exactly
once whatever the handler and listener outcomes. -/
theorem execFrom_one_call {J E : Type} (handlerRes listenerThrow : Nat → Option E)
    (job : J) (backoff : Option BackoffOpt) (defaultErr : E)
    (attempt : Nat) (lastE : Option E) (c : JobCounts) (l : ExecLog J E) :
    (execFrom handlerRes listenerThrow job backoff defaultErr 1 attempt lastE c l).2.handlerCalls =
      l.handlerCalls + 1 := by
  cases h0 : handlerRes l.handlerCalls with
  | some e => simp [execFrom, h0, jobFailed]
  | none =>
    cases h1 : listenerThrow l.completedFires.length with
    | none => simp [execFrom, h0, h1]
    | some e => simp [execFrom, h0, h1, jobFailed]

/-- Adding jobs while no handler is registered keeps the queue handlerless
and appends each `(data, options)` pair, decorated with its fresh id, to
the pending buffer in call order. -/
theorem addAll_no_handler {T : Type} (items : List (T × JobOptions)) :
    ∀ (s : QueueState T), s.hasHandler = false →
      (addAll s items).hasHandler = false ∧
      (addAll s items).pending.map (fun q => (q.1.data, q.2)) =
        s.pending.map (fun q => (q.1.data, q.2)) ++ items := by
  induction items with
  | nil => intro s h; simp [addAll, h]
  | cons p items ih =>
    intro s h
    obtain ⟨d, o⟩ := p
    have hstep : addAll s ((d, o) :: items) = addAll (addJob s d o).1 items := rfl
    have hh : (addJob s d o).1.hasHandler = false := by
      simp [addJob, h]
    have hp : (addJob s d o).1.pending = s.pending ++ [(⟨s.nextId, d⟩, o)] := by
      simp [addJob, h]
    obtain ⟨ih1, ih2⟩ := ih (addJob s d o).1 hh
    constructor
    · rw [hstep]; exact ih1
    · rw [hstep, ih2, hp]; simp

/-- A `find?` over an appended list skips a block in which nothing satisfies the predicate. -/
theorem find?_append_of_none {α : Type} (l1 l2 : List α) (p : α → Bool)
    (h : l1.find? p = none) : (l1 ++ l2).find? p = l2.find? p := by
  induction l1 with
  | nil => rfl
  | cons a l ih =>
    cases hpa : p a with
    | true => simp [List.find?_cons_of_pos _ hpa] at h
    | false =>
      rw [List.find?_cons_of_neg _ (by simp [hpa])] at h
      simp only [List.cons_append, List.find?_cons_of_neg _ (by simp [hpa] : ¬ p a = true)]
      exact ih h

/-- A map that fixes every element of a list is the identity on it. -/
theorem map_id_of_cond {α : Type} (l : List α) (f : α → α) (h : ∀ a ∈ l, f a = a) :
    l.map f = l := by
  induction l with
  | nil => rfl
  | cons a l ih =>
    rw [List.map_cons, h a (by simp), ih (fun x hx => h x (by simp [hx]))]

/-- The patch `patchSalesCallRow` written field-wise: each of the four mutable fields
keeps its stored value unless the incoming item supplies it non-empty. -/
theorem patchSalesCallRow_eq (row : SalesCallRow) (item : SalesCallItem) :
    patchSalesCallRow row item =
      { row with
        RecordingUrl := if item.recordingLink ≠ "" then item.recordingLink else row.RecordingUrl,
        TranscriptUrl := if item.transcript ≠ "" then item.transcript else row.TranscriptUrl,
        AiSummary := if item.aiSummary ≠ "" then item.aiSummary else row.AiSummary,
        Status := if item.status ≠ "" then item.status else row.Status } := by
  unfold patchSalesCallRow
  by_cases h1 : item.recordingLink = "" <;> by_cases h2 : item.transcript = "" <;>
    by_cases h3 : item.aiSummary = "" <;> by_cases h4 : item.status = "" <;>
    simp [h1, h2, h3, h4]

/-- The patch `patchSalesLeadRow` written field-wise. -/
theorem patchSalesLeadRow_eq (row : SalesLeadRow) (item : SalesLeadItem) :
    patchSalesLeadRow row item =
      { row with
        VoicemailTranscript :=
          if item.transcript ≠ "" then item.transcript else row.VoicemailTranscript } := by
  unfold patchSalesLeadRow
  by_cases h1 : item.transcript = "" <;> simp [h1]

/-- Two sales-call upserts sharing one non-empty correlation id, against a
store with no record for that id and a fresh id `n1`: the first call
creates the row, the second finds and patches it in place, and the final
store holds the original rows plus exactly one merged row. -/
theorem salesCall_upsert_twice (callRows : List SalesCallRow) (n1 : Nat)
    (i1 i2 : SalesCallItem)
    (hc : i1.callId ≠ "") (hc2 : i2.callId = i1.callId)
    (hnoc : ∀ r ∈ callRows, r.CallId ≠ i1.callId)
    (hfreshc : ∀ r ∈ callRows, r.id ≠ n1) :
    createSalesCallItem (createSalesCallItem callRows n1 i1).1
        (createSalesCallItem callRows n1 i1).2.1 i2 =
      (callRows ++
        [⟨n1, i1.summary, i1.contact, i1.priority,
          (if i2.status ≠ "" then i2.status else i1.status),
          i1.callTimestamp, i1.callId, i1.duration,
          (if i2.recordingLink ≠ "" then i2.recordingLink else i1.recordingLink),
          (if i2.transcript ≠ "" then i2.transcript else i1.transcript),
          (if i2.aiSummary ≠ "" then i2.aiSummary else i1.aiSummary),
          i1.owner⟩], n1 + 1, n1) ∧
    (createSalesCallItem callRows n1 i1).2.2 = n1 := by
  have hfind1 : callRows.find? (fun r => r.CallId = i1.callId) = none := by
    rw [List.find?_eq_none]
    intro x hx
    simp [hnoc x hx]
  have hs1 : createSalesCallItem callRows n1 i1 =
      (callRows ++ [newSalesCallRow n1 i1], n1 + 1, n1) := by
    simp [createSalesCallItem, hc, hfind1]
  have hfind2 : (callRows ++ [newSalesCallRow n1 i1]).find?
      (fun r => r.CallId = i2.callId) = some (newSalesCallRow n1 i1) := by
    rw [hc2, find?_append_of_none _ _ _ hfind1]
    simp [newSalesCallRow]
  have hc2' : i2.callId ≠ "" := by rw [hc2]; exact hc
  have hmap : (callRows ++ [newSalesCallRow n1 i1]).map
        (fun r => if r.id = (newSalesCallRow n1 i1).id then patchSalesCallRow r i2 else r) =
      callRows ++ [patchSalesCallRow (newSalesCallRow n1 i1) i2] := by
    rw [List.map_append]
    congr 1
    · apply map_id_of_cond
      intro a ha
      simp [newSalesCallRow, hfreshc a ha]
    · simp
  have hpatch : patchSalesCallRow (newSalesCallRow n1 i1) i2 =
      ⟨n1, i1.summary, i1.contact, i1.priority,
        (if i2.status ≠ "" then i2.status else i1.status),
        i1.callTimestamp, i1.callId, i1.duration,
        (if i2.recordingLink ≠ "" then i2.recordingLink else i1.recordingLink),
        (if i2.transcript ≠ "" then i2.transcript else i1.transcript),
        (if i2.aiSummary ≠ "" then i2.aiSummary else i1.aiSummary),
        i1.owner⟩ := by
    rw [patchSalesCallRow_eq]
    simp [newSalesCallRow]
  refine ⟨?_, by rw [hs1]⟩
  rw [hs1]
  simp only [createSalesCallItem, hc2', hfind2, if_pos, ne_eq, not_false_iff, ite_true]
  rw [hmap, hpatch]
  simp [newSalesCallRow]

/-- Two sales-lead upserts sharing one non-empty correlation id, against a
store with no record for that id and a fresh id `m1`: the first call
creates the row, the second patches only a non-empty incoming transcript,
and exactly one row results. -/
theorem salesLead_upsert_twice (leadRows : List SalesLeadRow) (m1 : Nat)
    (j1 j2 : SalesLeadItem)
    (hl : j1.callId ≠ "") (hl2 : j2.callId = j1.callId)
    (hnol : ∀ r ∈ leadRows, r.CallId ≠ j1.callId)
    (hfreshl : ∀ r ∈ leadRows, r.id ≠ m1) :
    createSalesLeadItem (createSalesLeadItem leadRows m1 j1).1
        (createSalesLeadItem leadRows m1 j1).2.1 j2 =
      (leadRows ++
        [⟨m1, j1.summary, j1.channel, j1.priority, j1.status, j1.callTimestamp, j1.callId,
          (if j2.transcript ≠ "" then j2.transcript else j1.transcript), "", j1.owner⟩],
       m1 + 1, m1, "") ∧
    (createSalesLeadItem leadRows m1 j1).2.2.1 = m1 := by
  have hfind1 : leadRows.find? (fun r => r.CallId = j1.callId) = none := by
    rw [List.find?_eq_none]
    intro x hx
    simp [hnol x hx]
  have hs1 : createSalesLeadItem leadRows m1 j1 =
      (leadRows ++ [newSalesLeadRow m1 j1], m1 + 1, m1, "") := by
    simp [createSalesLeadItem, hl, hfind1]
  have hfind2 : (leadRows ++ [newSalesLeadRow m1 j1]).find?
      (fun r => r.CallId = j2.callId) = some (newSalesLeadRow m1 j1) := by
    rw [hl2, find?_append_of_none _ _ _ hfind1]
    simp [newSalesLeadRow]
  have hl2' : j2.callId ≠ "" := by rw [hl2]; exact hl
  have hmap : (leadRows ++ [newSalesLeadRow m1 j1]).map
        (fun r => if r.id = (newSalesLeadRow m1 j1).id then patchSalesLeadRow r j2 else r) =
      leadRows ++ [patchSalesLeadRow (newSalesLeadRow m1 j1) j2] := by
    rw [List.map_append]
    congr 1
    · apply map_id_of_cond
      intro a ha
      simp [newSalesLeadRow, hfreshl a ha]
    · simp
  have hpatch : patchSalesLeadRow (newSalesLeadRow m1 j1) j2 =
      ⟨m1, j1.summary, j1.channel, j1.priority, j1.status, j1.callTimestamp, j1.callId,
        (if j2.transcript ≠ "" then j2.transcript else j1.transcript), "", j1.owner⟩ := by
    rw [patchSalesLeadRow_eq]
    simp [newSalesLeadRow]
  refine ⟨?_, by rw [hs1]⟩
  rw [hs1]
  simp only [createSalesLeadItem, hl2', hfind2, if_pos, ne_eq, not_false_iff, ite_true]
  rw [hmap, hpatch]
  simp [newSalesLeadRow]

/-! ### Claim theorems -/

/-- Claim C4: exponential backoff with base delay `D` after failed attempt
`k ≥ 1` yields `D * 2 ^ (k - 1)`; a bare numeric backoff and a typed
non-exponential backoff yield the same constant delay at every attempt; no
configured backoff yields delay `0`. -/
theorem c4_backoff_policy (D k n : Nat) (t : String) (_hk : 1 ≤ k) (ht : t ≠ "exponential") :
    getBackoffDelay (some (.obj "exponential" (some D))) k = D * 2 ^ (k - 1) ∧
    getBackoffDelay (some (.num n)) k = n ∧
    getBackoffDelay (some (.obj t (some D))) k = D ∧
    getBackoffDelay none k = 0 := by
  refine ⟨rfl, rfl, ?_, rfl⟩
  simp [getBackoffDelay, ht]

/-- Witness for C4 at `D = 100`, `k = 3`, `n = 7`, `t = "fixed"`. -/
theorem c4_backoff_policy_witness :
    getBackoffDelay (some (.obj "exponential" (some 100))) 3 = 100 * 2 ^ (3 - 1) ∧
    getBackoffDelay (some (.num 7)) 3 = 7 ∧
    getBackoffDelay (some (.obj "fixed" (some 100))) 3 = 100 ∧
    getBackoffDelay none 3 = 0 :=
  c4_backoff_policy 100 3 7 "fixed" (by decide) (by decide)

/-- Claim C1 (code bug): on a `phone.callee_call_log_completed` event whose
first call-log entry has result `"Recorded"` (neither `"Missed"` nor
`"Voicemail"`), the webhook handler as executed enqueues nothing — the
switch's first case for this tag wins and only logs — while the second,
unreachable case carrying the claimed behaviour would enqueue a sales-call
job. -/
theorem c1_call_log_completed_dead_case :
    handleWebhookEvent "phone.callee_call_log_completed"
        ⟨ "CALL-1", "", none, none, [⟨ "CALL-1", "Recorded", 120, true⟩]⟩ = [] ∧
    callLogCompletedSecondCase
        ⟨ "CALL-1", "", none, none, [⟨ "CALL-1", "Recorded", 120, true⟩]⟩ =
      [QueueAdd.salesCall] := by
  decide

/-- Claim C7: the followup-task detail patch performs at most 3
read-then-conditional-patch cycles; conflicts on cycles 1 and 2 followed by
success on cycle 3 succeed overall with two fixed 1500 ms delays; conflicts
on all 3 cycles surface the last error. -/
theorem c7_planner_patch_three_attempts {E : Type} (patchRes : Nat → Option E) :
    (plannerDetailPatch patchRes).2.1 ≤ 3 ∧
    (∀ e1 e2, patchRes 0 = some e1 → patchRes 1 = some e2 → patchRes 2 = none →
      plannerDetailPatch patchRes = (none, 3, [1500, 1500])) ∧
    (∀ e1 e2 e3, patchRes 0 = some e1 → patchRes 1 = some e2 → patchRes 2 = some e3 →
      plannerDetailPatch patchRes = (some e3, 3, [1500, 1500])) := by
  refine ⟨?_, ?_, ?_⟩
  · cases h0 : patchRes 0 <;> cases h1 : patchRes 1 <;> cases h2 : patchRes 2 <;>
      simp [plannerDetailPatch, plannerPatchLoop, h0, h1, h2]
  · intro e1 e2 h0 h1 h2
    simp [plannerDetailPatch, plannerPatchLoop, h0, h1, h2]
  · intro e1 e2 e3 h0 h1 h2
    simp [plannerDetailPatch, plannerPatchLoop, h0, h1, h2]

/-- Witness for C7: two conflicts then success succeeds; three conflicts
surface the third error. -/
theorem c7_planner_patch_three_attempts_witness :
    plannerDetailPatch (fun i => if i < 2 then some (37 : Nat) else none) =
      (none, 3, [1500, 1500]) ∧
    plannerDetailPatch (fun i => some (i + 1)) = (some 3, 3, [1500, 1500]) :=
  ⟨(c7_planner_patch_three_attempts (fun i => if i < 2 then some (37 : Nat) else none)).2.1
      37 37 rfl rfl rfl,
   (c7_planner_patch_three_attempts (fun i => some (i + 1))).2.2 1 2 3 rfl rfl rfl⟩

/-- Claim C8: when the lead upsert and the planner-task call succeed, the
missed-call and voicemail handlers complete successfully whatever the
outcome of the link-back patch (and of the Teams post): those failures are
swallowed and never propagate. -/
theorem c8_link_back_soft_fail {E : Type} (envM : MissedCallEnv E) (envV : VoicemailEnv E)
    (pM pV : Nat × String) (tM tV : String)
    (h1 : envM.leadOutcome = .ok pM) (h2 : envM.taskOutcome = .ok tM)
    (h3 : envV.leadOutcome = .ok pV) (h4 : envV.taskOutcome = .ok tV) :
    processMissedCall envM = .ok () ∧ processVoicemail envV = .ok () := by
  obtain ⟨iM, exM⟩ := pM
  obtain ⟨iV, exV⟩ := pV
  constructor
  · simp [processMissedCall, h1, h2, updateSalesLeadPlannerTaskId_ok, postToTeamsChannel_ok]
  · simp [processVoicemail, h3, h4, updateSalesLeadPlannerTaskId_ok, postToTeamsChannel_ok]

/-- Witness for C8: both handlers succeed even though the link-back patch
and the Teams post both fail. -/
theorem c8_link_back_soft_fail_witness :
    processMissedCall
        (⟨.ok (1, ""), .ok "T1", .error 0, true, .error 1⟩ : MissedCallEnv Nat) = .ok () ∧
    processVoicemail
        (⟨ "hello", .ok (2, ""), .ok "T2", .error 2, true, .error 3⟩ : VoicemailEnv Nat) =
      .ok () :=
  c8_link_back_soft_fail _ _ (1, "") (2, "") "T1" "T2" rfl rfl rfl rfl

/-- Claim C3: for a volatile-queue job run with `attempts = N ≥ 1` and
well-behaved listeners: if the handler first succeeds on attempt `k ≤ N`,
it is invoked exactly `k` times, the completed listeners fire exactly once
with the job, and no failed/error notification fires; if all `N` attempts
throw, the handler is invoked exactly `N` times, the failed listeners fire
exactly once with the job and the last error, the error listeners fire
exactly once with the last error, the failed count increases by one and the
job's active contribution returns to zero. -/
theorem c3_retry_and_exhaustion_semantics {J E : Type} (job : J) (defaultErr : E)
    (options : JobOptions) (c : JobCounts) (handlerRes : Nat → Option E) (N : Nat)
    (hN : 1 ≤ N) (hatt : options.attempts = some N) :
    (∀ k, 1 ≤ k → k ≤ N →
      (∀ i, i < k - 1 → handlerRes i ≠ none) →
      handlerRes (k - 1) = none →
      ∃ ds, execute handlerRes (fun _ => none) job options defaultErr c =
        (⟨c.waiting - 1, c.active, c.completed + 1, c.failed, c.delayed, c.paused⟩,
         ⟨k, [job], [], [], ds⟩)) ∧
    (∀ errF : Nat → E,
      (∀ i, i < N → handlerRes i = some (errF i)) →
      ∃ ds, execute handlerRes (fun _ => none) job options defaultErr c =
        (⟨c.waiting - 1, c.active, c.completed, c.failed + 1, c.delayed, c.paused⟩,
         ⟨N, [], [(job, errF (N - 1))], [errF (N - 1)], ds⟩)) := by
  constructor
  · intro k hk1 hkN hfail hsucc
    obtain ⟨ds, hds⟩ := execFrom_first_success handlerRes (fun _ => none) job options.backoff
      defaultErr (fun _ => rfl) (k - 1) N 1 none
      ⟨c.waiting - 1, c.active + 1, c.completed, c.failed, c.delayed, c.paused⟩
      ExecLog.empty (by omega)
      (fun i hi => by
        show handlerRes (0 + i) ≠ none
        rw [Nat.zero_add]
        exact hfail i hi)
      (by
        show handlerRes (0 + (k - 1)) = none
        rw [Nat.zero_add]
        exact hsucc)
    refine ⟨ds, ?_⟩
    simp only [execute, hatt, Option.getD_some]
    rw [max_eq_right hN, hds]
    have hk : 0 + (k - 1) + 1 = k := by omega
    simp [ExecLog.empty, hk]
    omega
  · intro errF hfail
    obtain ⟨M, rfl⟩ : ∃ M, N = M + 1 := ⟨N - 1, by omega⟩
    obtain ⟨ds, hds⟩ := execFrom_all_fail handlerRes (fun _ => none) job options.backoff
      defaultErr errF M 1 none
      ⟨c.waiting - 1, c.active + 1, c.completed, c.failed, c.delayed, c.paused⟩
      ExecLog.empty
      (fun i hi => by
        show handlerRes (0 + i) = some (errF (0 + i))
        rw [Nat.zero_add]
        exact hfail i hi)
    refine ⟨ds, ?_⟩
    simp only [execute, hatt, Option.getD_some]
    rw [max_eq_right hN, hds]
    have hm : 0 + M = M + 1 - 1 := by omega
    simp [ExecLog.empty, hm]

/-- Witness for C3 with `N = 3`: a handler that fails once then succeeds is
invoked twice with one completed firing; a handler that always fails is
invoked three times and reported failed with the third error. -/
theorem c3_retry_and_exhaustion_semantics_witness :
    (∃ ds, execute (fun i => if i = 0 then some "e0" else none) (fun _ => none) (7 : Nat)
        ⟨some 3, none⟩ "dflt" JobCounts.zero =
      (⟨0 - 1, 0, 0 + 1, 0, 0, 0⟩, ⟨2, [7], [], [], ds⟩)) ∧
    (∃ ds, execute (fun i => some (toString i)) (fun _ => none) (7 : Nat)
        ⟨some 3, none⟩ "dflt" JobCounts.zero =
      (⟨0 - 1, 0, 0, 0 + 1, 0, 0⟩, ⟨3, [], [(7, toString (3 - 1))], [toString (3 - 1)], ds⟩)) :=
  ⟨(c3_retry_and_exhaustion_semantics (7 : Nat) "dflt" ⟨some 3, none⟩ JobCounts.zero
      (fun i => if i = 0 then some "e0" else none) 3 (by omega) rfl).1 2 (by omega) (by omega)
      (fun i hi => by
        have : i = 0 := by omega
        subst this
        simp)
      (by simp),
   (c3_retry_and_exhaustion_semantics (7 : Nat) "dflt" ⟨some 3, none⟩ JobCounts.zero
      (fun i => some (toString i)) 3 (by omega) rfl).2 (fun i => toString i)
      (fun i _ => rfl)⟩

/-- Claim C2 (amended): an exception thrown by a completed listener is not
swallowed — it is caught by the attempt loop and treated as a handler
failure.  With `attempts = N`, an always-succeeding handler and an
always-throwing completed listener, the handler is re-invoked `N` times in
total, the completed count is incremented `N` times, and the failed/error
listeners spuriously fire with the listener's exception while the failed
count increments. -/
theorem c2_listener_throw_retries_job {J E : Type} (job : J) (defaultErr e : E)
    (options : JobOptions) (c : JobCounts) (handlerRes listenerThrow : Nat → Option E)
    (N : Nat) (hN : 1 ≤ N) (hatt : options.attempts = some N)
    (hh : ∀ i, handlerRes i = none) (hl : ∀ j, listenerThrow j = some e) :
    ∃ ds, execute handlerRes listenerThrow job options defaultErr c =
      (⟨c.waiting - 1, c.active + 1 - N - 1, c.completed + N, c.failed + 1,
        c.delayed, c.paused⟩,
       ⟨N, List.replicate N job, [(job, e)], [e], ds⟩) := by
  obtain ⟨M, rfl⟩ : ∃ M, N = M + 1 := ⟨N - 1, by omega⟩
  obtain ⟨ds, hds⟩ := execFrom_listener_throw handlerRes listenerThrow job options.backoff
    defaultErr e hh hl M 1 none
    ⟨c.waiting - 1, c.active + 1, c.completed, c.failed, c.delayed, c.paused⟩
    ExecLog.empty
  refine ⟨ds, ?_⟩
  simp only [execute, hatt, Option.getD_some]
  rw [max_eq_right hN, hds]
  simp [ExecLog.empty]

/-- Witness for C2's amended theorem at `N = 2`. -/
theorem c2_listener_throw_retries_job_witness :
    ∃ ds, execute (fun _ => none) (fun _ => some "boom") (7 : Nat)
        ⟨some 2, none⟩ "dflt" JobCounts.zero =
      (⟨0 - 1, 0 + 1 - 2 - 1, 0 + 2, 0 + 1, 0, 0⟩,
       ⟨2, List.replicate 2 7, [(7, "boom")], ["boom"], ds⟩) :=
  c2_listener_throw_retries_job (7 : Nat) "dflt" "boom" ⟨some 2, none⟩ JobCounts.zero
    (fun _ => none) (fun _ => some "boom") 2 (by omega) rfl (fun _ => rfl) (fun _ => rfl)

/-- Claim C2 (counterexample to the claim as stated): with `attempts = 2`,
a handler that always returns normally and a completed listener that throws
on its first firing, the handler is re-invoked (2 calls instead of 1), the
completed listeners fire twice and the completed count is incremented
twice — a listener exception does alter queue bookkeeping. -/
theorem c2_listener_throw_affects_bookkeeping_cex :
    (execute (fun _ => none) (fun j => if j = 0 then some "boom" else none) (0 : Nat)
        ⟨some 2, none⟩ "dflt" JobCounts.zero).2.handlerCalls = 2 ∧
    (execute (fun _ => none) (fun j => if j = 0 then some "boom" else none) (0 : Nat)
        ⟨some 2, none⟩ "dflt" JobCounts.zero).2.completedFires = [0, 0] ∧
    (execute (fun _ => none) (fun j => if j = 0 then some "boom" else none) (0 : Nat)
        ⟨some 2, none⟩ "dflt" JobCounts.zero).1.completed = 2 := by
  decide

/-- Claim C9 (amended): a job added with no `attempts` value is executed
with a single attempt — the handler is invoked exactly once — because
`attempts` defaults to 1, not 3. -/
theorem c9_default_attempts_is_one {J E : Type} (job : J) (defaultErr : E)
    (options : JobOptions) (c : JobCounts) (handlerRes listenerThrow : Nat → Option E)
    (hatt : options.attempts = none) :
    (execute handlerRes listenerThrow job options defaultErr c).2.handlerCalls = 1 := by
  simp only [execute, hatt, Option.getD_none, Nat.max_self]
  exact execFrom_one_call handlerRes listenerThrow job options.backoff defaultErr 1 none
    ⟨c.waiting - 1, c.active + 1, c.completed, c.failed, c.delayed, c.paused⟩ ExecLog.empty

/-- Witness for C9's amended theorem. -/
theorem c9_default_attempts_is_one_witness :
    (execute (fun _ => some 5) (fun _ => none) (0 : Nat) ⟨none, some (.num 7)⟩ 9
        JobCounts.zero).2.handlerCalls = 1 :=
  c9_default_attempts_is_one (0 : Nat) 9 ⟨none, some (.num 7)⟩ JobCounts.zero
    (fun _ => some 5) (fun _ => none) rfl

/-- Claim C9 (counterexample to the claim as stated): a job whose options
carry no `attempts` value and whose handler always throws is marked failed
after a single handler invocation, not three. -/
theorem c9_default_attempts_cex :
    (execute (fun _ => some "boom") (fun _ => none) (0 : Nat) ⟨none, none⟩ "dflt"
        JobCounts.zero).2.handlerCalls = 1 ∧
    (execute (fun _ => some "boom") (fun _ => none) (0 : Nat) ⟨none, none⟩ "dflt"
        JobCounts.zero).2.failedFires = [(0, "boom")] ∧
    ¬ (execute (fun _ => some "boom") (fun _ => none) (0 : Nat) ⟨none, none⟩ "dflt"
        JobCounts.zero).2.handlerCalls = 3 := by
  decide

/-- Claim C6: for any sequence of jobs added to a fresh volatile queue
before a handler is registered, `process` starts one execution per
buffered job, in original insertion order, and empties the buffer. -/
theorem c6_process_drains_fifo {T : Type} (items : List (T × JobOptions)) :
    (processQueue (addAll (QueueState.init T) items)).2.map (fun q => (q.1.data, q.2)) =
      items ∧
    (processQueue (addAll (QueueState.init T) items)).1.pending = [] ∧
    (processQueue (addAll (QueueState.init T) items)).1.hasHandler = true := by
  obtain ⟨-, hp⟩ := addAll_no_handler items (QueueState.init T) rfl
  rw [show (QueueState.init T).pending = [] from rfl, List.map_nil, List.nil_append] at hp
  have hspec : (processQueue (addAll (QueueState.init T) items)).2 =
      (addAll (QueueState.init T) items).pending ∧
      (processQueue (addAll (QueueState.init T) items)).1.pending = [] ∧
      (processQueue (addAll (QueueState.init T) items)).1.hasHandler = true := by
    unfold processQueue
    by_cases hemp : (addAll (QueueState.init T) items).pending = [] <;>
      simp [hemp, List.isEmpty_iff]
  obtain ⟨h2, h3, h4⟩ := hspec
  exact ⟨by rw [h2, hp], h3, h4⟩

/-- Claim C5: for two sales-call upserts and two sales-lead upserts whose
records share one (non-empty) correlation id, against a store holding no
record for that id (and a fresh item id): exactly one stored record
results — the first call creates it and the second call patches in place
only the fields it supplies non-empty (recordingLink, transcript,
aiSummary, status for sales calls; transcript for leads), fields left
empty retaining the first call's values — and no second record is
created. -/
theorem c5_upsert_idempotent_merge (callRows : List SalesCallRow) (n1 : Nat)
    (i1 i2 : SalesCallItem) (leadRows : List SalesLeadRow) (m1 : Nat)
    (j1 j2 : SalesLeadItem)
    (hc : i1.callId ≠ "") (hc2 : i2.callId = i1.callId)
    (hnoc : ∀ r ∈ callRows, r.CallId ≠ i1.callId)
    (hfreshc : ∀ r ∈ callRows, r.id ≠ n1)
    (hl : j1.callId ≠ "") (hl2 : j2.callId = j1.callId)
    (hnol : ∀ r ∈ leadRows, r.CallId ≠ j1.callId)
    (hfreshl : ∀ r ∈ leadRows, r.id ≠ m1) :
    (createSalesCallItem (createSalesCallItem callRows n1 i1).1
        (createSalesCallItem callRows n1 i1).2.1 i2 =
      (callRows ++
        [⟨n1, i1.summary, i1.contact, i1.priority,
          (if i2.status ≠ "" then i2.status else i1.status),
          i1.callTimestamp, i1.callId, i1.duration,
          (if i2.recordingLink ≠ "" then i2.recordingLink else i1.recordingLink),
          (if i2.transcript ≠ "" then i2.transcript else i1.transcript),
          (if i2.aiSummary ≠ "" then i2.aiSummary else i1.aiSummary),
          i1.owner⟩], n1 + 1, n1) ∧
      (createSalesCallItem callRows n1 i1).2.2 = n1) ∧
    (createSalesLeadItem (createSalesLeadItem leadRows m1 j1).1
        (createSalesLeadItem leadRows m1 j1).2.1 j2 =
      (leadRows ++
        [⟨m1, j1.summary, j1.channel, j1.priority, j1.status, j1.callTimestamp, j1.callId,
          (if j2.transcript ≠ "" then j2.transcript else j1.transcript), "", j1.owner⟩],
       m1 + 1, m1, "") ∧
      (createSalesLeadItem leadRows m1 j1).2.2.1 = m1) :=
  ⟨salesCall_upsert_twice callRows n1 i1 i2 hc hc2 hnoc hfreshc,
   salesLead_upsert_twice leadRows m1 j1 j2 hl hl2 hnol hfreshl⟩

/-- Witness for C5 on an empty store: a voicemail-style lead pair and a
recording/transcript-style sales-call pair, both keyed by `"CID"`. -/
theorem c5_upsert_idempotent_merge_witness :
    (createSalesCallItem
        (createSalesCallItem [] 1 ⟨ "ct1", "sum1", "High", "Recorded", "t1", "rl1", "", "", "CID", 10, []⟩).1
        (createSalesCallItem [] 1 ⟨ "ct1", "sum1", "High", "Recorded", "t1", "rl1", "", "", "CID", 10, []⟩).2.1
        ⟨ "ct2", "sum2", "Low", "", "t2", "", "tr2", "ai2", "CID", 20, []⟩ =
      ([⟨1, "sum1", "ct1", "High", "Recorded", "t1", "CID", 10, "rl1", "tr2", "ai2", []⟩], 2, 1) ∧
      (createSalesCallItem [] 1 ⟨ "ct1", "sum1", "High", "Recorded", "t1", "rl1", "", "", "CID", 10, []⟩).2.2 = 1) ∧
    (createSalesLeadItem
        (createSalesLeadItem [] 1 ⟨ "Zoom Phone", "lead1", "High", "New", "t1", "vm1", "", "CID", []⟩).1
        (createSalesLeadItem [] 1 ⟨ "Zoom Phone", "lead1", "High", "New", "t1", "vm1", "", "CID", []⟩).2.1
        ⟨ "Zoom Phone", "lead2", "High", "New", "t2", "", "hello there", "CID", []⟩ =
      ([⟨1, "lead1", "Zoom Phone", "High", "New", "t1", "CID", "hello there", "", []⟩], 2, 1, "") ∧
      (createSalesLeadItem [] 1 ⟨ "Zoom Phone", "lead1", "High", "New", "t1", "vm1", "", "CID", []⟩).2.2.1 = 1) := by
  have h := c5_upsert_idempotent_merge [] 1
    ⟨ "ct1", "sum1", "High", "Recorded", "t1", "rl1", "", "", "CID", 10, []⟩
    ⟨ "ct2", "sum2", "Low", "", "t2", "", "tr2", "ai2", "CID", 20, []⟩
    [] 1
    ⟨ "Zoom Phone", "lead1", "High", "New", "t1", "vm1", "", "CID", []⟩
    ⟨ "Zoom Phone", "lead2", "High", "New", "t2", "", "hello there", "CID", []⟩
    (by decide) rfl (by simp) (by simp) (by decide) rfl (by simp) (by simp)
  simpa using h

/-- Claim C10: a `phone.callee_ended` or `phone.caller_ended` event whose
payload carries neither a `handup_result` nor a `result` field enqueues
nothing: the absent result reads as the empty string, which matches none of
the missed-call conditions. -/
theorem c10_call_ended_absent_result_ignored (eventType : String) (obj : WebhookObject)
    (htype : eventType = "phone.callee_ended" ∨ eventType = "phone.caller_ended")
    (h1 : obj.handup_result = none) (h2 : obj.result = none) :
    handleWebhookEvent eventType obj = [] := by
  have hcase : callEndedCase obj = [] := by
    unfold callEndedCase
    rw [h1, h2]
    decide
  rcases htype with h | h <;> subst h <;> simp [handleWebhookEvent, hcase]

/-- Witness for C10 on a concrete `phone.caller_ended` payload. -/
theorem c10_call_ended_absent_result_ignored_witness :
    handleWebhookEvent "phone.caller_ended" ⟨ "C9", "V1", none, none, []⟩ = [] :=
  c10_call_ended_absent_result_ignored "phone.caller_ended"
    ⟨ "C9", "V1", none, none, []⟩ (Or.inr rfl) rfl rfl

end ZoomTeams
